import Mathlib

/-!
Shallow embedding of the auctionflipper ingestion/evaluation pipeline.

Each definition translates one function of the Python source:
* `Handlers/DataBaseHandler.py`   — store operations over the auctions collection
* `Handlers/ItemValueHandlerOptimized.py` — single and batched valuation with cache
* `Handlers/AuctionHandlerOptimized.py`   — page fetch, page processing, reconciliation
* `ItemValueHandler.py`           — legacy single-item valuation (profit arithmetic)
* `AuctionFlipperCoreOptimized.py` — startup (`initial_launch`)

The persistent store is modelled by the set of stored auction uuids
(`Finset String`); only uuid membership is observable through the store
operations the claims mention.  External collaborators (HTTP responses, the
valuation service, price tables) are passed in as explicit values or
functions, mirroring the request/response boundary of the source.
-/

/-- One raw auction entry of the remote catalog, restricted to the fields the
pipeline reads (`AuctionHandlerOptimized.process_page_optimized` lines 98-113,
`ItemValueHandlerOptimized.process_auctions_batch` lines 297-314). -/
structure Auction where
  uuid : String
  item_name : String
  tier : String
  starting_bid : Int
  bin : Bool
  claimed : Bool
  item_bytes : String
  startTime : Int
  endTime : Int
  auctioneer : Option String
  coop : List String
deriving DecidableEq, Inhabited

/-- The `itemstats` dictionary built for evaluation
(`process_auctions_batch` lines 303-313). -/
structure ItemStats where
  uuid : String
  item_name : String
  tier : String
  starting_bid : Int
  item_bytes : String
  startTime : Int
  endTime : Int
  seller : Option String
deriving DecidableEq, Inhabited

/-- `auction.get('auctioneer') or (auction.get('coop', [None])[0] if auction.get('coop') else None)`. -/
def sellerOf (a : Auction) : Option String :=
  match a.auctioneer with
  | some s => some s
  | none => a.coop.head?

/-- Builds the `itemstats` payload from an auction
(`process_auctions_batch` lines 303-313). -/
def mkItemStats (a : Auction) : ItemStats :=
  { uuid := a.uuid, item_name := a.item_name, tier := a.tier,
    starting_bid := a.starting_bid, item_bytes := a.item_bytes,
    startTime := a.startTime, endTime := a.endTime, seller := sellerOf a }

/-- One entry of the valuation service reply
(spec section 6: `{success, isProfitable, profit, percentage, estimatedValue, itemId}`). -/
structure EvalResult where
  success : Bool
  isProfitable : Bool
  itemId : String
  profit : Int
  percentage : Int
  estimatedValue : Int
deriving DecidableEq, Inhabited

/-! ## DataBaseHandler.py -/

/-- `bulk_check_existing_auctions(uuids)` (DataBaseHandler lines 127-139):
empty input short-circuits to the empty set without touching the store;
otherwise one `$in` query returns the stored uuids among `uuids`.
The second component records whether a store query was issued. -/
def bulk_check_existing_auctions (store : Finset String) (uuids : List String) :
    Finset String × Bool :=
  if uuids.isEmpty then (∅, false)
  else (store.filter (fun u => u ∈ uuids), true)

/-- `bulk_delete_auctions(uuids)` (DataBaseHandler lines 141-149):
empty input returns 0 without touching the store; otherwise `delete_many`
removes every stored record whose uuid is listed and reports the count.
The outer second component records whether a store query was issued. -/
def bulk_delete_auctions (store : Finset String) (uuids : List String) :
    (Finset String × Nat) × Bool :=
  if uuids.isEmpty then ((store, 0), false)
  else ((store.filter (fun u => u ∉ uuids), (store.filter (fun u => u ∈ uuids)).card), true)

/-- Semantics of pymongo `collection.insert_many(docs)` with the default
`ordered=True` against the unique index on `uuid`
(created in `setup_database_indexes`, DataBaseHandler line 38): documents are
inserted one by one in order; the first duplicate key raises `BulkWriteError`,
leaving earlier documents inserted and later ones untouched.
Returns (resulting store, number inserted, whether the error was raised). -/
def insert_many_ordered (store : Finset String) : List Auction → Finset String × Nat × Bool
  | [] => (store, 0, false)
  | a :: rest =>
    if a.uuid ∈ store then (store, 0, true)
    else
      let r := insert_many_ordered (insert a.uuid store) rest
      (r.1, r.2.1 + 1, r.2.2)

/-- `bulk_insert_auctions()` (DataBaseHandler lines 182-189): flushes the
`AuctionInsertion` buffer with a bare ordered `insert_many` and no exception
handling, printing a count only on full success (in which case the buffer is
cleared).  Returns ((store, remaining buffer), reported count when printed). -/
def bulk_insert_auctions (store : Finset String) (buffer : List Auction) :
    (Finset String × List Auction) × Option Nat :=
  if buffer.isEmpty then ((store, buffer), none)
  else
    let r := insert_many_ordered store buffer
    if r.2.2 then ((r.1, buffer), none)
    else ((r.1, []), some r.2.1)

/-! ## Handlers/ItemValueHandlerOptimized.py -/

/-- Client-side evaluation cache `_evaluation_cache`: association list from
cache key (derived from `item_bytes`, `get_cache_key` line 107-110; md5 is
modelled as the identity since the code treats the digest as opaque) to
(cached result, time obtained).  `hits` mirrors `evaluation_stats['cache_hits']`. -/
structure CacheState where
  cache : List (String × EvalResult × Int)
  hits : Nat
deriving DecidableEq, Inhabited

/-- Python dict lookup on the cache. -/
def cacheLookup (c : List (String × EvalResult × Int)) (k : String) :
    Option (EvalResult × Int) :=
  match c.find? (fun e => e.1 = k) with
  | some e => some e.2
  | none => none

/-- Python dict assignment `_evaluation_cache[cache_key] = (result, current_time)`. -/
def cacheStore (c : List (String × EvalResult × Int)) (k : String)
    (r : EvalResult) (t : Int) : List (String × EvalResult × Int) :=
  (k, r, t) :: c.filter (fun e => e.1 ≠ k)

/-- Outcome of the single-item POST to `/evaluate`: HTTP 200 with a body,
a non-success status, or a network/timeout exception. -/
inductive SingleResp where
  | ok (r : EvalResult)
  | httpErr (status : Nat)
  | netErr
deriving DecidableEq

/-- `evaluate_item_async(item_data, prices, itemstats)` (lines 112-168).
Checks the cache first: a live entry (`now - cache_time < ttl`) is returned
verbatim with a cache-hit increment and no service contact; otherwise the
service is called, a 200 reply is cached at `now` and returned, and a
non-success status or exception yields `none`.
Returns (result, cache state, whether the external service was contacted). -/
def evaluate_item_async (ttl now : Int) (svc : SingleResp) (st : CacheState)
    (item_bytes : String) : Option EvalResult × CacheState × Bool :=
  let callService : Option EvalResult × CacheState × Bool :=
    match svc with
    | .ok r => (some r, { st with cache := cacheStore st.cache item_bytes r now }, true)
    | .httpErr _ => (none, st, true)
    | .netErr => (none, st, true)
  match cacheLookup st.cache item_bytes with
  | some (r, t) =>
    if now - t < ttl then (some r, { st with hits := st.hits + 1 }, false)
    else callService
  | none => callService

/-- `cleanup_cache()` (lines 219-227): keeps exactly the entries with
`now - obtained_at < ttl`. -/
def cleanup_cache (ttl now : Int) (c : List (String × EvalResult × Int)) :
    List (String × EvalResult × Int) :=
  c.filter (fun e => now - e.2.2 < ttl)

/-- One entry of `items_data` (`process_auctions_batch` lines 301-313):
the decoded first item of the payload plus the rebuilt `itemstats`. -/
structure BatchItem where
  item : String
  itemstats : ItemStats
deriving DecidableEq, Inhabited

/-- Outcome of the batched POST to `/evaluate-batch`: HTTP 200 carrying the
service's result list (order-aligned to the request per spec section 6), or a
non-success status / network exception (both handled identically, lines 210-217). -/
inductive BatchResp where
  | ok (results : List EvalResult)
  | failure
deriving DecidableEq

/-- `evaluate_items_batch(items_data)` (lines 170-217): items whose payload
fails `json.dumps` are dropped (`serOk` models that test, lines 181-188); an
all-dropped batch returns `[]` without calling the service; otherwise the
surviving items are sent in one request and the reply's `results` list is
returned as-is, a failed call returning `[]`.
Returns (results, whether the external service was contacted). -/
def evaluate_items_batch (serOk : BatchItem → Bool)
    (svc : List BatchItem → BatchResp) (items : List BatchItem) :
    List EvalResult × Bool :=
  let ser := items.filter serOk
  if ser.isEmpty then ([], false)
  else
    match svc ser with
    | .ok results => (results, true)
    | .failure => ([], true)

/-- The flip document built by `process_auctions_batch` (lines 338-346). -/
structure FlipData where
  itemstats : ItemStats
  profit : Int
  daily_sales : Option Int
  lowest_bin : Option Int
  percentage : Int
  targeted_price : Int
  timestamp : Int
deriving DecidableEq, Inhabited

/-- `flip_data` constructed for evaluation result `r` with the itemstats taken
from `items_data[i]` (lines 338-346). -/
def mkFlipData (stats : ItemStats) (r : EvalResult)
    (lowestbin dailysales : String → Option Int) (now : Int) : FlipData :=
  { itemstats := stats, profit := r.profit,
    daily_sales := dailysales r.itemId, lowest_bin := lowestbin r.itemId,
    percentage := r.percentage, targeted_price := r.estimatedValue,
    timestamp := now }

/-- The filtering loop of `process_auctions_batch` (lines 297-314): keeps the
fixed-price unclaimed auctions whose payload decodes to a nonempty item list
(`decode` models `decode_data_optimized` plus the `'i'` extraction), building
`items_data` and `valid_auctions` in lockstep. -/
def prepare_batch (decode : String → Option String) : List Auction → List (BatchItem × Auction)
  | [] => []
  | a :: rest =>
    if a.bin && !a.claimed then
      match decode a.item_bytes with
      | some it => ({ item := it, itemstats := mkItemStats a }, a) :: prepare_batch decode rest
      | none => prepare_batch decode rest
    else prepare_batch decode rest

/-- The result loop of `process_auctions_batch` (lines 329-349):
`for i, result in enumerate(evaluation_results)` pairs `evaluation_results[i]`
with `items_data[i]` / `valid_auctions[i]` positionally, guarded by
`i < len(valid_auctions)`; a profitable result appends a flip embedding
`items_data[i]['itemstats']`.  The two lists always have equal length (they
are built in lockstep by `prepare_batch`), so the mixed-length fourth case is
unreachable. -/
def collect_flips (lowestbin dailysales : String → Option Int) (now : Int) :
    List BatchItem → List Auction → List EvalResult → List FlipData
  | _, _, [] => []
  | _, [], _ :: _ => []
  | [], _ :: _, _ :: _ => []
  | b :: bs, _ :: vs, r :: rs =>
    if r.isProfitable then
      mkFlipData b.itemstats r lowestbin dailysales now ::
        collect_flips lowestbin dailysales now bs vs rs
    else collect_flips lowestbin dailysales now bs vs rs

/-- `process_auctions_batch(auctions)` (lines 283-360): filters to evaluable
auctions, evaluates the batch, and returns the recorded flips (the returned
`profitable_count` equals the length of this list — the two are incremented
together at lines 348-349). -/
def process_auctions_batch (decode : String → Option String)
    (serOk : BatchItem → Bool) (svc : List BatchItem → BatchResp)
    (lowestbin dailysales : String → Option Int) (now : Int)
    (auctions : List Auction) : List FlipData :=
  if auctions.isEmpty then []
  else
    let pairs := prepare_batch decode auctions
    let items := pairs.map Prod.fst
    let valid := pairs.map Prod.snd
    if items.isEmpty then []
    else
      let results := (evaluate_items_batch serOk svc items).1
      collect_flips lowestbin dailysales now items valid results

/-! ## Handlers/AuctionHandlerOptimized.py -/

/-- The fields of one page reply that `process_page_optimized` consumes. -/
structure PageData where
  auctions : List Auction
deriving DecidableEq, Inhabited

/-- Outcome of the page GET inside `fetch_page_data` (lines 49-62): a 200
reply whose body parses, a 200 reply whose body fails `orjson.loads`
(the exception is caught by the same handler as network errors), a
non-success status, or a network exception. -/
inductive FetchOutcome where
  | success (d : PageData)
  | parseFail
  | httpFail (status : Nat)
  | netFail
deriving DecidableEq, Inhabited

/-- `fetch_page_data(session, page)` (lines 49-62): every failure mode is
logged and turned into `{'auctions': []}`; the function is total — it never
propagates an exception to the caller. -/
def fetch_page_data : FetchOutcome → PageData
  | .success d => d
  | .parseFail => { auctions := [] }
  | .httpFail _ => { auctions := [] }
  | .netFail => { auctions := [] }

/-- The `auction_inserts` / `bin_auctions` list of `process_page_optimized`
(lines 84-113): auctions of the page whose uuid the batch existence check did
not report, restricted to fixed-price unclaimed ones.  (`auction['uuid'] not in
existing_uuids` with `existing_uuids = bulk_check_existing_auctions(all page
uuids)`.) -/
def page_insertions (store : Finset String) (f : FetchOutcome) : List Auction :=
  let auctions := (fetch_page_data f).auctions
  if auctions.isEmpty then []
  else
    let uuids := auctions.map (fun a => a.uuid)
    let existing := (bulk_check_existing_auctions store uuids).1
    let newAuctions := auctions.filter (fun a => decide (a.uuid ∉ existing))
    newAuctions.filter (fun a => a.bin && !a.claimed)

/-- The store after `process_page_optimized` runs its bulk insert
(lines 115-120): `auctions.insert_many(auction_inserts)` inside a
`try/except` that logs and continues, so a `BulkWriteError` leaves the
partially inserted state in place. -/
def page_store_update (store : Finset String) (f : FetchOutcome) : Finset String :=
  (insert_many_ordered store (page_insertions store f)).1

/-- Observable outcome of `process_page_optimized(session, page)` (lines 64-143). -/
structure PageOutcome where
  store : Finset String
  inserted : List Auction
  flips : List FlipData
deriving DecidableEq

/-- `process_page_optimized` (lines 64-143): fetch, batch dedup against the
store, bulk insert of the new fixed-price unclaimed auctions (before and
independent of evaluation), then `process_auctions_batch` over the same list
(its flips; an exception there is caught and yields none). -/
def process_page_optimized (decode : String → Option String)
    (serOk : BatchItem → Bool) (svc : List BatchItem → BatchResp)
    (lowestbin dailysales : String → Option Int) (now : Int)
    (store : Finset String) (f : FetchOutcome) : PageOutcome :=
  let ins := page_insertions store f
  { store := page_store_update store f,
    inserted := ins,
    flips := if ins.isEmpty then []
             else process_auctions_batch decode serOk svc lowestbin dailysales now ins }

/-- One ingestion pass (`check_auctions_parallel`, lines 145-244) over a list
of page outcomes, modelled as a sequential fold of `process_page_optimized`
(ordering across pages does not matter for the store: each page only adds its
own new records).  Returns the final store and the total number of records
inserted. -/
def run_cycle (decode : String → Option String) (serOk : BatchItem → Bool)
    (svc : List BatchItem → BatchResp) (lowestbin dailysales : String → Option Int)
    (now : Int) (store : Finset String) : List FetchOutcome → Finset String × Nat
  | [] => (store, 0)
  | f :: rest =>
    let o := process_page_optimized decode serOk svc lowestbin dailysales now store f
    let r := run_cycle decode serOk svc lowestbin dailysales now o.store rest
    (r.1, o.inserted.length + r.2)

/-- Outcome of the GET of the `auctions_ended` feed inside
`delete_ended_auctions_optimized`: a parsed id list, or any
network/HTTP/parse failure (all caught by the same handler). -/
inductive EndedFeed where
  | ok (ids : List String)
  | failure
deriving DecidableEq

/-- `delete_ended_auctions_optimized()` (lines 246-281): fetches the ended
feed, returns 0 on an empty feed or any error; otherwise intersects the feed
ids with the store via the batch existence check and bulk-deletes that
intersection, returning the deleted count.  Python's `list(existing)` is
modelled as filtering the fetched id list, which lists the same elements
(`bulk_delete_auctions` only inspects membership). -/
def delete_ended_auctions_optimized (store : Finset String) (feed : EndedFeed) :
    Finset String × Nat :=
  match feed with
  | .failure => (store, 0)
  | .ok ids =>
    if ids.isEmpty then (store, 0)
    else
      let existing := (bulk_check_existing_auctions store ids).1
      let existingList := ids.filter (fun u => decide (u ∈ existing))
      if existing.Nonempty then (bulk_delete_auctions store existingList).1
      else (store, 0)

/-! ## ItemValueHandler.py (legacy evaluation path) -/

/-- The flip document of the legacy path (`get_item_networth` lines 84-90). -/
structure OldFlip where
  itemstats : ItemStats
  profit : Rat
  daily_sales : Option Int
  lowest_bin : Option Int
  percentage : Rat
deriving DecidableEq

/-- The profitability decision and flip arithmetic of `get_item_networth`
(ItemValueHandler.py lines 36-95), given the evaluator's output
(`networth`, `itemid`): a flip is produced only when
`networth > itemstats['starting_bid']` (strict), with
`profit = networth - starting_bid` and
`percentage = profit / starting_bid * 100`. -/
def get_item_networth_flip (itemstats : ItemStats) (networth : Rat)
    (itemid : String) (lowestbin dailysales : String → Option Int) :
    Option OldFlip :=
  if (itemstats.starting_bid : Rat) < networth then
    some { itemstats := itemstats,
           profit := networth - (itemstats.starting_bid : Rat),
           daily_sales := dailysales itemid,
           lowest_bin := lowestbin itemid,
           percentage := (networth - (itemstats.starting_bid : Rat)) /
             (itemstats.starting_bid : Rat) * 100 }
  else none

/-! ## AuctionFlipperCoreOptimized.py -/

/-- The module-level function names defined in
`Handlers/AuctionHandlerOptimized.py` (its complete list of `def`/`async def`
declarations). -/
def auctionHandlerOptimizedModuleDefs : List String :=
  ["get_global_session", "fetch_page_data", "process_page_optimized",
   "check_auctions_parallel", "delete_ended_auctions_optimized",
   "CheckAuctions", "delete_ended_auctions",
   "benchmark_parallel_performance", "cleanup_session"]

/-- Outcome of `initial_launch` (AuctionFlipperCoreOptimized.py lines 133-194)
after the per-page pass has completed. -/
inductive LaunchOutcome where
  | done (newAuctionFlips existingAuctionFlips : Nat)
  | importError (missingName : String)
deriving DecidableEq

/-- `initial_launch` after `check_auctions_parallel` returns (lines 171-176):
executes `from Handlers.AuctionHandlerOptimized import
reevaluate_all_existing_auctions` and would then call it.  The import
succeeds only if the name is defined in that module; otherwise Python raises
`ImportError` out of `initial_launch`.  The `done` branch is unreachable in
this repository — no file defines `reevaluate_all_existing_auctions`, so no
body exists to translate for it (its flip count is reported as the
placeholder 0 in the dead branch). -/
def initial_launch_after_pages (newAuctionFlips : Nat) : LaunchOutcome :=
  if "reevaluate_all_existing_auctions" ∈ auctionHandlerOptimizedModuleDefs then
    LaunchOutcome.done newAuctionFlips 0
  else LaunchOutcome.importError "reevaluate_all_existing_auctions"

/-! ## Concrete fixtures used by witnesses and counterexamples -/

def wAuction1 : Auction :=
  { uuid := "a1", item_name := "Item One", tier := "RARE",
    starting_bid := 100, bin := true, claimed := false, item_bytes := "b1",
    startTime := 0, endTime := 10, auctioneer := some "s1", coop := [] }

def wAuction2 : Auction :=
  { uuid := "a2", item_name := "Item Two", tier := "RARE",
    starting_bid := 7, bin := false, claimed := false, item_bytes := "b2",
    startTime := 0, endTime := 10, auctioneer := none, coop := ["c"] }

def wDecode : String → Option String := fun b => some b

def wPages : List FetchOutcome :=
  [FetchOutcome.success { auctions := [wAuction1] },
   FetchOutcome.success { auctions := [wAuction2] }]

def wSvc : List BatchItem → BatchResp := fun items =>
  BatchResp.ok (items.map (fun b =>
    { success := true, isProfitable := b.itemstats.uuid == "a1",
      itemId := "ITEM1", profit := 50, percentage := 50, estimatedValue := 150 }))

def wF : BatchItem → EvalResult := fun b =>
  { success := true, isProfitable := b.itemstats.uuid == "a1",
    itemId := "ITEM1", profit := 50, percentage := 50, estimatedValue := 150 }

def cxAuction0 : Auction :=
  { uuid := "a0", item_name := "Item Zero", tier := "RARE",
    starting_bid := 10, bin := true, claimed := false, item_bytes := "b0",
    startTime := 0, endTime := 10, auctioneer := some "s0", coop := [] }

/-- Models the `json.dumps` test of `evaluate_items_batch` failing exactly on
the entry built from auction `a0`. -/
def cxSerOk : BatchItem → Bool := fun b => b.itemstats.uuid == "a1"

def cxBatchItem : BatchItem := { item := "b1", itemstats := mkItemStats wAuction1 }

def cxResult : EvalResult :=
  { success := true, isProfitable := false, itemId := "ITEM1",
    profit := 0, percentage := 0, estimatedValue := 90 }

def cxCacheSt : CacheState := { cache := [("b1", cxResult, 0)], hits := 0 }

def cxDupAuction : Auction :=
  { uuid := "u", item_name := "Dup", tier := "RARE",
    starting_bid := 1, bin := true, claimed := false, item_bytes := "bu",
    startTime := 0, endTime := 10, auctioneer := none, coop := [] }

def cxFreshAuction : Auction :=
  { uuid := "v", item_name := "Fresh", tier := "RARE",
    starting_bid := 2, bin := true, claimed := false, item_bytes := "bv",
    startTime := 0, endTime := 10, auctioneer := none, coop := [] }

def wPage0 : FetchOutcome := FetchOutcome.success { auctions := [wAuction1] }

def wPage1 : FetchOutcome := FetchOutcome.success { auctions := [wAuction2] }

def wFlip : OldFlip :=
  { itemstats := mkItemStats wAuction1, profit := 50,
    daily_sales := none, lowest_bin := none, percentage := 50 }

/-! ## Helper lemmas -/

theorem insert_many_ordered_all_fresh (l : List Auction) (store : Finset String)
    (hfresh : ∀ a ∈ l, a.uuid ∉ store) (hnodup : (l.map (fun a => a.uuid)).Nodup) :
    insert_many_ordered store l =
      (l.foldl (fun s a => insert a.uuid s) store, l.length, false) := by
  induction l generalizing store with
  | nil => rfl
  | cons a rest ih =>
    have ha : a.uuid ∉ store := hfresh a (List.mem_cons_self a rest)
    simp only [insert_many_ordered, if_neg ha]
    have hrest : ∀ b ∈ rest, b.uuid ∉ insert a.uuid store := by
      intro b hb
      have hbs : b.uuid ∉ store := hfresh b (List.mem_cons_of_mem a hb)
      have hba : b.uuid ≠ a.uuid := by
        intro h
        have hm : b.uuid ∈ rest.map (fun a => a.uuid) :=
          List.mem_map_of_mem (fun a => a.uuid) hb
        rw [h] at hm
        exact (List.nodup_cons.mp hnodup).1 hm
      simp [Finset.mem_insert, hbs, hba]
    rw [ih (insert a.uuid store) hrest (List.nodup_cons.mp hnodup).2]
    simp [List.foldl_cons, List.length_cons]

theorem mem_foldl_insert_of_mem (l : List Auction) (store : Finset String) (u : String)
    (h : u ∈ store) : u ∈ l.foldl (fun s a => insert a.uuid s) store := by
  induction l generalizing store with
  | nil => exact h
  | cons a rest ih => exact ih _ (Finset.mem_insert_of_mem h)

theorem mem_foldl_insert_of_mem_list (l : List Auction) (store : Finset String) (a : Auction)
    (h : a ∈ l) : a.uuid ∈ l.foldl (fun s a => insert a.uuid s) store := by
  induction l generalizing store with
  | nil => cases h
  | cons b rest ih =>
    rcases List.mem_cons.mp h with h1 | h2
    · subst h1
      exact mem_foldl_insert_of_mem rest _ _ (Finset.mem_insert_self a.uuid store)
    · exact ih _ h2

theorem insert_many_ordered_mono (l : List Auction) (store : Finset String) :
    store ⊆ (insert_many_ordered store l).1 := by
  induction l generalizing store with
  | nil => exact Finset.Subset.refl store
  | cons a rest ih =>
    by_cases h : a.uuid ∈ store
    · simp [insert_many_ordered, if_pos h]
    · simp only [insert_many_ordered, if_neg h]
      exact fun u hu => ih (insert a.uuid store) (Finset.mem_insert_of_mem hu)

theorem mem_page_insertions (store : Finset String) (f : FetchOutcome) (a : Auction) :
    a ∈ page_insertions store f ↔
      a ∈ (fetch_page_data f).auctions ∧ (a.bin && !a.claimed) = true ∧ a.uuid ∉ store := by
  unfold page_insertions
  cases hau : (fetch_page_data f).auctions with
  | nil => simp
  | cons x xs =>
    simp only [List.isEmpty_cons, Bool.false_eq_true, if_false, List.mem_filter,
      bulk_check_existing_auctions, decide_eq_true_iff]
    constructor
    · rintro ⟨⟨ha, hnot⟩, hbin⟩
      refine ⟨ha, hbin, fun hs => hnot ?_⟩
      have : ((x :: xs).map (fun a => a.uuid)).isEmpty = false := by simp
      simp only [this, Bool.false_eq_true, if_false, Finset.mem_filter]
      exact ⟨hs, List.mem_map_of_mem (fun a => a.uuid) ha⟩
    · rintro ⟨ha, hbin, hnot⟩
      refine ⟨⟨ha, fun hmem => hnot ?_⟩, hbin⟩
      have : ((x :: xs).map (fun a => a.uuid)).isEmpty = false := by simp
      simp only [this, Bool.false_eq_true, if_false, Finset.mem_filter] at hmem
      exact hmem.1

theorem page_insertions_nodup (store : Finset String) (f : FetchOutcome)
    (h : ((fetch_page_data f).auctions.map (fun a => a.uuid)).Nodup) :
    ((page_insertions store f).map (fun a => a.uuid)).Nodup := by
  unfold page_insertions
  cases hau : (fetch_page_data f).auctions with
  | nil => simp
  | cons x xs =>
    simp only [List.isEmpty_cons, Bool.false_eq_true, if_false]
    rw [hau] at h
    exact h.sublist (((List.filter_sublist _).trans (List.filter_sublist _)).map _)

theorem page_store_update_mono (store : Finset String) (f : FetchOutcome) :
    store ⊆ page_store_update store f :=
  insert_many_ordered_mono _ store

theorem page_store_update_covers (store : Finset String) (f : FetchOutcome)
    (hnodup : ((fetch_page_data f).auctions.map (fun a => a.uuid)).Nodup)
    (a : Auction) (ha : a ∈ (fetch_page_data f).auctions)
    (hbin : (a.bin && !a.claimed) = true) :
    a.uuid ∈ page_store_update store f := by
  by_cases hs : a.uuid ∈ store
  · exact page_store_update_mono store f hs
  · have hins : a ∈ page_insertions store f :=
      (mem_page_insertions store f a).mpr ⟨ha, hbin, hs⟩
    have hfresh : ∀ b ∈ page_insertions store f, b.uuid ∉ store :=
      fun b hb => ((mem_page_insertions store f b).mp hb).2.2
    unfold page_store_update
    rw [insert_many_ordered_all_fresh _ _ hfresh (page_insertions_nodup store f hnodup)]
    exact mem_foldl_insert_of_mem_list _ _ _ hins

theorem run_cycle_mono (decode : String → Option String) (serOk : BatchItem → Bool)
    (svc : List BatchItem → BatchResp) (lb ds : String → Option Int) (now : Int)
    (store : Finset String) (pages : List FetchOutcome) :
    store ⊆ (run_cycle decode serOk svc lb ds now store pages).1 := by
  induction pages generalizing store with
  | nil => exact Finset.Subset.refl store
  | cons f rest ih =>
    exact (page_store_update_mono store f).trans (ih (page_store_update store f))

theorem run_cycle_covers (decode : String → Option String) (serOk : BatchItem → Bool)
    (svc : List BatchItem → BatchResp) (lb ds : String → Option Int) (now : Int)
    (store : Finset String) (pages : List FetchOutcome)
    (hnodup : ∀ f ∈ pages, ((fetch_page_data f).auctions.map (fun a => a.uuid)).Nodup)
    (f : FetchOutcome) (hf : f ∈ pages) (a : Auction)
    (ha : a ∈ (fetch_page_data f).auctions) (hbin : (a.bin && !a.claimed) = true) :
    a.uuid ∈ (run_cycle decode serOk svc lb ds now store pages).1 := by
  induction pages generalizing store with
  | nil => cases hf
  | cons g rest ih =>
    rcases List.mem_cons.mp hf with h1 | h2
    · subst h1
      exact run_cycle_mono decode serOk svc lb ds now _ rest
        (page_store_update_covers store f (hnodup f (List.mem_cons_self f rest)) a ha hbin)
    · exact ih _ (fun p hp => hnodup p (List.mem_cons_of_mem g hp)) h2

theorem run_cycle_covered_fixed (decode : String → Option String) (serOk : BatchItem → Bool)
    (svc : List BatchItem → BatchResp) (lb ds : String → Option Int) (now : Int)
    (store : Finset String) (pages : List FetchOutcome)
    (hcov : ∀ f ∈ pages, ∀ a ∈ (fetch_page_data f).auctions,
      (a.bin && !a.claimed) = true → a.uuid ∈ store) :
    run_cycle decode serOk svc lb ds now store pages = (store, 0) := by
  induction pages with
  | nil => rfl
  | cons f rest ih =>
    have hempty : page_insertions store f = [] := by
      rw [List.eq_nil_iff_forall_not_mem]
      intro a ha
      have h := (mem_page_insertions store f a).mp ha
      exact h.2.2 (hcov f (List.mem_cons_self f rest) a h.1 h.2.1)
    have hstore : page_store_update store f = store := by
      unfold page_store_update
      rw [hempty]
      rfl
    show (_, _) = (store, 0)
    rw [show (process_page_optimized decode serOk svc lb ds now store f).store
        = page_store_update store f from rfl,
      show (process_page_optimized decode serOk svc lb ds now store f).inserted
        = page_insertions store f from rfl, hstore, hempty,
      ih (fun p hp => hcov p (List.mem_cons_of_mem f hp))]
    rfl

theorem run_cycle_indep (d1 d2 : String → Option String) (s1 s2 : BatchItem → Bool)
    (v1 v2 : List BatchItem → BatchResp) (lb1 lb2 ds1 ds2 : String → Option Int)
    (n1 n2 : Int) (store : Finset String) (pages : List FetchOutcome) :
    run_cycle d1 s1 v1 lb1 ds1 n1 store pages = run_cycle d2 s2 v2 lb2 ds2 n2 store pages := by
  induction pages generalizing store with
  | nil => rfl
  | cons f rest ih =>
    show ((run_cycle d1 s1 v1 lb1 ds1 n1 (page_store_update store f) rest).1,
        (page_insertions store f).length +
          (run_cycle d1 s1 v1 lb1 ds1 n1 (page_store_update store f) rest).2)
      = ((run_cycle d2 s2 v2 lb2 ds2 n2 (page_store_update store f) rest).1,
        (page_insertions store f).length +
          (run_cycle d2 s2 v2 lb2 ds2 n2 (page_store_update store f) rest).2)
    rw [ih (page_store_update store f)]

theorem collect_flips_nil (lb ds : String → Option Int) (now : Int)
    (items : List BatchItem) (valid : List Auction) :
    collect_flips lb ds now items valid [] = [] := by
  cases items <;> cases valid <;> rfl

theorem evaluate_items_batch_aligned (serOk : BatchItem → Bool)
    (f : BatchItem → EvalResult) (items : List BatchItem)
    (h : ∀ b ∈ items, serOk b = true) :
    (evaluate_items_batch serOk (fun l => BatchResp.ok (l.map f)) items).1 = items.map f := by
  have hfil : items.filter serOk = items := List.filter_eq_self.mpr h
  by_cases he : items.isEmpty
  · simp [evaluate_items_batch, hfil, he, List.isEmpty_iff.mp he]
  · simp [evaluate_items_batch, hfil, he]

theorem collect_flips_aligned (lb ds : String → Option Int) (now : Int)
    (f : BatchItem → EvalResult) (pairs : List (BatchItem × Auction)) :
    collect_flips lb ds now (pairs.map Prod.fst) (pairs.map Prod.snd)
        ((pairs.map Prod.fst).map f)
      = (pairs.map Prod.fst).filterMap (fun b =>
          if (f b).isProfitable then some (mkFlipData b.itemstats (f b) lb ds now)
          else none) := by
  induction pairs with
  | nil => rfl
  | cons p rest ih =>
    by_cases hp : (f p.1).isProfitable
    · simp only [List.map_cons, collect_flips, List.filterMap_cons, hp, if_true, ih]
    · simp only [List.map_cons, collect_flips, List.filterMap_cons, hp, Bool.false_eq_true,
        if_false, ih]

theorem insert_many_ordered_abort (store : Finset String) (pre : List Auction)
    (d : Auction) (post : List Auction)
    (hfresh : ∀ a ∈ pre, a.uuid ∉ store) (hnodup : (pre.map (fun a => a.uuid)).Nodup)
    (hdup : d.uuid ∈ store ∨ d.uuid ∈ pre.map (fun a => a.uuid)) :
    insert_many_ordered store (pre ++ d :: post)
      = (pre.foldl (fun s a => insert a.uuid s) store, pre.length, true) := by
  induction pre generalizing store with
  | nil =>
    rcases hdup with h | h
    · simp [insert_many_ordered, h]
    · cases h
  | cons a rest ih =>
    have ha : a.uuid ∉ store := hfresh a (List.mem_cons_self a rest)
    simp only [List.cons_append, insert_many_ordered, if_neg ha]
    have hrest : ∀ b ∈ rest, b.uuid ∉ insert a.uuid store := by
      intro b hb
      have hbs : b.uuid ∉ store := hfresh b (List.mem_cons_of_mem a hb)
      have hba : b.uuid ≠ a.uuid := by
        intro h
        have hm : b.uuid ∈ rest.map (fun a => a.uuid) :=
          List.mem_map_of_mem (fun a => a.uuid) hb
        rw [h] at hm
        exact (List.nodup_cons.mp hnodup).1 hm
      simp [Finset.mem_insert, hbs, hba]
    have hdup2 : d.uuid ∈ insert a.uuid store ∨ d.uuid ∈ rest.map (fun a => a.uuid) := by
      rcases hdup with h | h
      · exact Or.inl (Finset.mem_insert_of_mem h)
      · rw [List.map_cons] at h
        rcases List.mem_cons.mp h with h1 | h1
        · exact Or.inl (by rw [h1]; exact Finset.mem_insert_self a.uuid store)
        · exact Or.inr h1
    simp only [List.append_eq]
    rw [ih (insert a.uuid store) hrest (List.nodup_cons.mp hnodup).2 hdup2]
    simp

/-! ## Claim theorems -/

/-- C5: running the ingestion cycle a second time over the unchanged catalog
inserts zero new records (the first pass's records are reported by the batch
existence check and filtered out), and the set of persisted records does not
depend on the valuation service's answers, the payload decoding, the
serializability test, the price tables or the clock. -/
theorem C5_idempotent_ingestion (decode decode2 : String → Option String)
    (serOk serOk2 : BatchItem → Bool) (svc svc2 : List BatchItem → BatchResp)
    (lb lb2 ds ds2 : String → Option Int) (now now2 : Int)
    (store : Finset String) (pages : List FetchOutcome)
    (hnodup : ∀ f ∈ pages, ((fetch_page_data f).auctions.map (fun a => a.uuid)).Nodup) :
    run_cycle decode2 serOk2 svc2 lb2 ds2 now2
        (run_cycle decode serOk svc lb ds now store pages).1 pages
      = ((run_cycle decode serOk svc lb ds now store pages).1, 0)
    ∧ (run_cycle decode serOk svc lb ds now store pages).1
      = (run_cycle decode2 serOk2 svc2 lb2 ds2 now2 store pages).1 := by
  constructor
  · apply run_cycle_covered_fixed
    intro f hf a ha hbin
    exact run_cycle_covers decode serOk svc lb ds now store pages hnodup f hf a ha hbin
  · exact congrArg Prod.fst
      (run_cycle_indep decode decode2 serOk serOk2 svc svc2 lb lb2 ds ds2 now now2 store pages)

/-- Witness for C5 at a concrete two-page catalog. -/
theorem C5_idempotent_ingestion_witness :
    run_cycle wDecode (fun _ => true) wSvc (fun _ => none) (fun _ => none) 1
        (run_cycle wDecode (fun _ => true) wSvc (fun _ => none) (fun _ => none) 0 ∅ wPages).1 wPages
      = ((run_cycle wDecode (fun _ => true) wSvc (fun _ => none) (fun _ => none) 0 ∅ wPages).1, 0)
    ∧ (run_cycle wDecode (fun _ => true) wSvc (fun _ => none) (fun _ => none) 0 ∅ wPages).1
      = (run_cycle wDecode (fun _ => true) wSvc (fun _ => none) (fun _ => none) 1 ∅ wPages).1 :=
  C5_idempotent_ingestion wDecode wDecode (fun _ => true) (fun _ => true) wSvc wSvc
    (fun _ => none) (fun _ => none) (fun _ => none) (fun _ => none) 0 1 ∅ wPages (by decide)

/-- C1 (amended): when no prepared item is dropped by the serializability
test, the service reply (order-aligned per spec section 6) is distributed
positionally so that result i is the evaluation of input item i, and every
flip recorded for a profitable result embeds the itemstats of that same
input item. -/
theorem C1_batch_order_alignment (decode : String → Option String)
    (serOk : BatchItem → Bool) (f : BatchItem → EvalResult)
    (lb ds : String → Option Int) (now : Int) (auctions : List Auction)
    (hser : ∀ b ∈ (prepare_batch decode auctions).map Prod.fst, serOk b = true) :
    (evaluate_items_batch serOk (fun l => BatchResp.ok (l.map f))
        ((prepare_batch decode auctions).map Prod.fst)).1
      = ((prepare_batch decode auctions).map Prod.fst).map f
    ∧ process_auctions_batch decode serOk (fun l => BatchResp.ok (l.map f)) lb ds now auctions
      = ((prepare_batch decode auctions).map Prod.fst).filterMap (fun b =>
          if (f b).isProfitable then some (mkFlipData b.itemstats (f b) lb ds now)
          else none) := by
  refine ⟨evaluate_items_batch_aligned serOk f _ hser, ?_⟩
  by_cases hau : auctions.isEmpty
  · have : auctions = [] := List.isEmpty_iff.mp hau
    subst this
    simp [process_auctions_batch, prepare_batch]
  · simp only [process_auctions_batch, hau, Bool.false_eq_true, if_false]
    by_cases hit : ((prepare_batch decode auctions).map Prod.fst).isEmpty
    · have : (prepare_batch decode auctions).map Prod.fst = [] := List.isEmpty_iff.mp hit
      simp [hit, this]
    · simp only [hit, Bool.false_eq_true, if_false]
      rw [evaluate_items_batch_aligned serOk f _ hser]
      exact collect_flips_aligned lb ds now f (prepare_batch decode auctions)

/-- Witness for C1 at a concrete one-auction batch. -/
theorem C1_batch_order_alignment_witness :
    (evaluate_items_batch (fun _ => true) (fun l => BatchResp.ok (l.map wF))
        ((prepare_batch wDecode [wAuction1]).map Prod.fst)).1
      = ((prepare_batch wDecode [wAuction1]).map Prod.fst).map wF
    ∧ process_auctions_batch wDecode (fun _ => true) (fun l => BatchResp.ok (l.map wF))
        (fun _ => none) (fun _ => none) 0 [wAuction1]
      = ((prepare_batch wDecode [wAuction1]).map Prod.fst).filterMap (fun b =>
          if (wF b).isProfitable then some (mkFlipData b.itemstats (wF b) (fun _ => none) (fun _ => none) 0)
          else none) :=
  C1_batch_order_alignment wDecode (fun _ => true) wF (fun _ => none) (fun _ => none) 0
    [wAuction1] (by decide)

/-- Counterexample to C1 as stated: with the `a0` entry dropped before the
service call, the sole service result (for the `a1` item, the only profitable
one) is paired with position 0, so the recorded flip embeds the itemstats of
auction `a0`, not of the item the result belongs to. -/
theorem C1_counterexample :
    (process_auctions_batch wDecode cxSerOk (fun l => BatchResp.ok (l.map wF))
        (fun _ => none) (fun _ => none) 0 [cxAuction0, wAuction1]).map
        (fun fl => fl.itemstats.uuid) = ["a0"]
    ∧ (wF { item := "b0", itemstats := mkItemStats cxAuction0 }).isProfitable = false
    ∧ (wF { item := "b1", itemstats := mkItemStats wAuction1 }).isProfitable = true := by
  decide

/-- C3 (amended): a failing batch call yields the empty result list — no item
of the batch receives any result (so none is recorded as profitable), but no
per-item service-unavailable marker is produced either; only the single-item
path reports failure distinguishably (`None` versus a result object). -/
theorem C3_batch_failure_reporting (serOk : BatchItem → Bool) (items : List BatchItem)
    (decode : String → Option String) (lb ds : String → Option Int) (now ttl tm : Int)
    (auctions : List Auction) (bytes : String) (r : EvalResult) :
    (evaluate_items_batch serOk (fun _ => BatchResp.failure) items).1 = []
    ∧ process_auctions_batch decode serOk (fun _ => BatchResp.failure) lb ds now auctions = []
    ∧ evaluate_item_async ttl tm SingleResp.netErr ⟨[], 0⟩ bytes = (none, ⟨[], 0⟩, true)
    ∧ evaluate_item_async ttl tm (SingleResp.httpErr 500) ⟨[], 0⟩ bytes = (none, ⟨[], 0⟩, true)
    ∧ (evaluate_item_async ttl tm (SingleResp.ok r) ⟨[], 0⟩ bytes).1 = some r
    ∧ (none : Option EvalResult) ≠ some r := by
  refine ⟨?_, ?_, rfl, rfl, rfl, fun h => Option.noConfusion h⟩
  · by_cases he : (items.filter serOk).isEmpty <;> simp [evaluate_items_batch, he]
  · by_cases hau : auctions.isEmpty
    · simp [process_auctions_batch, hau]
    · simp only [process_auctions_batch, hau, Bool.false_eq_true, if_false]
      by_cases hit : ((prepare_batch decode auctions).map Prod.fst).isEmpty
      · simp [hit]
      · simp only [hit, Bool.false_eq_true, if_false]
        have hres : (evaluate_items_batch serOk (fun _ => BatchResp.failure)
            ((prepare_batch decode auctions).map Prod.fst)).1 = [] := by
          by_cases he : (((prepare_batch decode auctions).map Prod.fst).filter serOk).isEmpty <;>
            simp [evaluate_items_batch, he]
        rw [hres]
        exact collect_flips_nil lb ds now _ _

/-- Counterexample to C3 as stated: a failing batch call over a one-item batch
produces zero per-item reports, not one `EvaluationError` entry per item. -/
theorem C3_counterexample :
    ¬ ((evaluate_items_batch (fun _ => true) (fun _ => BatchResp.failure) [cxBatchItem]).1.length
        = [cxBatchItem].length) := by
  decide

/-- C4 (amended): on the single-item path a result cached at time `t` is
served verbatim (with a cache-hit increment and no service contact) whenever
`now - t < ttl`, and once `ttl ≤ now - t` the stale entry is not served — the
external service is contacted afresh; the batched path used by the ingestion
pipeline, however, contacts the service on every call whose batch survives
the serializability filter, never consulting the cache. -/
theorem C4_cache_ttl (ttl now t : Int) (st : CacheState) (bytes : String)
    (r : EvalResult) (svc : SingleResp) (serOk : BatchItem → Bool)
    (svcB : List BatchItem → BatchResp) (items : List BatchItem)
    (hcache : cacheLookup st.cache bytes = some (r, t)) :
    (now - t < ttl →
      evaluate_item_async ttl now svc st bytes
        = (some r, { st with hits := st.hits + 1 }, false))
    ∧ (ttl ≤ now - t → (evaluate_item_async ttl now svc st bytes).2.2 = true)
    ∧ ((items.filter serOk).isEmpty = false →
      (evaluate_items_batch serOk svcB items).2 = true) := by
  refine ⟨?_, ?_, ?_⟩
  · intro hlt
    unfold evaluate_item_async
    rw [hcache]
    simp [hlt]
  · intro hge
    unfold evaluate_item_async
    rw [hcache]
    simp only [not_lt.mpr hge, if_false]
    cases svc <;> rfl
  · intro hne
    unfold evaluate_items_batch
    simp only [hne, Bool.false_eq_true, if_false]
    cases svcB (items.filter serOk) <;> rfl

/-- Witness for C4 at a concrete cache state (entry obtained at time 0,
ttl 300, requests at times 5 and 400). -/
theorem C4_cache_ttl_witness :
    ((5 : Int) - 0 < 300 →
      evaluate_item_async 300 5 SingleResp.netErr cxCacheSt "b1"
        = (some cxResult, { cache := cxCacheSt.cache, hits := cxCacheSt.hits + 1 }, false))
    ∧ ((300 : Int) ≤ 400 - 0 →
      (evaluate_item_async 300 400 SingleResp.netErr cxCacheSt "b1").2.2 = true)
    ∧ (([cxBatchItem].filter (fun _ => true)).isEmpty = false →
      (evaluate_items_batch (fun _ => true) (fun _ => BatchResp.failure) [cxBatchItem]).2 = true) :=
  ⟨(C4_cache_ttl 300 5 0 cxCacheSt "b1" cxResult SingleResp.netErr (fun _ => true)
      (fun _ => BatchResp.failure) [cxBatchItem] (by decide)).1,
   (C4_cache_ttl 300 400 0 cxCacheSt "b1" cxResult SingleResp.netErr (fun _ => true)
      (fun _ => BatchResp.failure) [cxBatchItem] (by decide)).2.1,
   (C4_cache_ttl 300 5 0 cxCacheSt "b1" cxResult SingleResp.netErr (fun _ => true)
      (fun _ => BatchResp.failure) [cxBatchItem] (by decide)).2.2⟩

/-- Counterexample to C4 as stated: with a live cache entry for the payload
(obtained at time 0, request at time 5, ttl 300), the single-item path serves
it without contacting the service, but the batch path — the evaluation path
the optimized ingestion pipeline actually uses — still contacts the external
service on the very same payload (it takes no cache at all). -/
theorem C4_counterexample :
    (evaluate_item_async 300 5 SingleResp.netErr cxCacheSt "b1").2.2 = false
    ∧ (evaluate_item_async 300 5 SingleResp.netErr cxCacheSt "b1").1 = some cxResult
    ∧ cxBatchItem.itemstats.item_bytes = "b1"
    ∧ (evaluate_items_batch (fun _ => true)
        (fun l => BatchResp.ok (l.map wF)) [cxBatchItem]).2 = true := by
  decide

/-- C6: for every stored id set `S` and ended-feed list `E`, reconciliation
deletes exactly the stored ids listed in `E` and returns their number; ids in
`E` absent from the store change nothing (a no-op, not an error), a feed
failure deletes nothing, and the spec's concrete example holds. -/
theorem C6_reconciliation (store : Finset String) (ids : List String) :
    delete_ended_auctions_optimized store (EndedFeed.ok ids)
      = (store.filter (fun u => u ∉ ids), (store.filter (fun u => u ∈ ids)).card)
    ∧ delete_ended_auctions_optimized store EndedFeed.failure = (store, 0)
    ∧ delete_ended_auctions_optimized {"a1", "a2", "a3"} (EndedFeed.ok ["a2", "a4"])
      = ({"a1", "a3"}, 1) := by
  refine ⟨?_, rfl, by decide⟩
  unfold delete_ended_auctions_optimized
  by_cases hids : ids.isEmpty
  · have h0 : ids = [] := List.isEmpty_iff.mp hids
    subst h0
    simp
  · simp only [hids, Bool.false_eq_true, if_false]
    by_cases hne : ((bulk_check_existing_auctions store ids).1).Nonempty
    · simp only [hne, if_true]
      unfold bulk_check_existing_auctions bulk_delete_auctions
      simp only [hids, Bool.false_eq_true, if_false]
      have hmem : ∀ u, u ∈ ids.filter
          (fun u => decide (u ∈ store.filter (fun v => v ∈ ids))) ↔ u ∈ ids ∧ u ∈ store := by
        intro u
        simp only [List.mem_filter, decide_eq_true_iff, Finset.mem_filter]
        constructor
        · rintro ⟨h1, h2, h3⟩
          exact ⟨h1, h2⟩
        · rintro ⟨h1, h2⟩
          exact ⟨h1, h2, h1⟩
      by_cases hfe : (ids.filter
          (fun u => decide (u ∈ store.filter (fun v => v ∈ ids)))).isEmpty
      · have hempty : store.filter (fun v => v ∈ ids) = ∅ := by
          rw [Finset.eq_empty_iff_forall_not_mem]
          intro u hu
          have h2 := Finset.mem_filter.mp hu
          have : u ∈ ids.filter (fun u => decide (u ∈ store.filter (fun v => v ∈ ids))) :=
            (hmem u).mpr ⟨h2.2, h2.1⟩
          rw [List.isEmpty_iff.mp hfe] at this
          cases this
        exact absurd hempty (Finset.nonempty_iff_ne_empty.mp (by
          unfold bulk_check_existing_auctions at hne
          simpa only [hids, Bool.false_eq_true, if_false] using hne))
      · simp only [hfe, Bool.false_eq_true, if_false]
        rw [Prod.mk.injEq]
        refine ⟨?_, ?_⟩
        · apply Finset.filter_congr
          intro u hu
          rw [not_iff_not, hmem u]
          simp [hu]
        · apply congrArg Finset.card
          apply Finset.filter_congr
          intro u hu
          rw [hmem u]
          simp [hu]
    · simp only [hne, if_false]
      have hempty : (bulk_check_existing_auctions store ids).1 = ∅ :=
        Finset.not_nonempty_iff_eq_empty.mp hne
      unfold bulk_check_existing_auctions at hempty
      simp only [hids, Bool.false_eq_true, if_false] at hempty
      rw [Prod.mk.injEq]
      refine ⟨?_, ?_⟩
      · rw [Finset.filter_true_of_mem]
        intro u hu hin
        have hmm : u ∈ store.filter (fun v => v ∈ ids) := Finset.mem_filter.mpr ⟨hu, hin⟩
        rw [hempty] at hmm
        cases hmm
      · rw [hempty]
        rfl

/-- C7: a page whose fetch hits a non-success status, a network error or an
unparseable body yields `{'auctions': []}` instead of raising, and processing
such a page leaves the store untouched, inserts nothing and records no flips,
so the cycle continues with the other pages. -/
theorem C7_page_fetch_never_raises (s : Nat) (decode : String → Option String)
    (serOk : BatchItem → Bool) (svc : List BatchItem → BatchResp)
    (lb ds : String → Option Int) (now : Int) (store : Finset String) :
    fetch_page_data (FetchOutcome.httpFail s) = { auctions := [] }
    ∧ fetch_page_data FetchOutcome.netFail = { auctions := [] }
    ∧ fetch_page_data FetchOutcome.parseFail = { auctions := [] }
    ∧ process_page_optimized decode serOk svc lb ds now store (FetchOutcome.httpFail s)
      = { store := store, inserted := [], flips := [] }
    ∧ process_page_optimized decode serOk svc lb ds now store FetchOutcome.netFail
      = { store := store, inserted := [], flips := [] }
    ∧ process_page_optimized decode serOk svc lb ds now store FetchOutcome.parseFail
      = { store := store, inserted := [], flips := [] } :=
  ⟨rfl, rfl, rfl, rfl, rfl, rfl⟩

/-- C10: the batch existence check only ever reports ids it was asked about,
and both batch operations treat empty input as an identity, answered without
issuing a store query. -/
theorem C10_store_interface (store : Finset String) (ids : List String) :
    (∀ u ∈ (bulk_check_existing_auctions store ids).1, u ∈ ids)
    ∧ bulk_check_existing_auctions store [] = (∅, false)
    ∧ bulk_delete_auctions store [] = ((store, 0), false) := by
  refine ⟨?_, rfl, rfl⟩
  intro u hu
  unfold bulk_check_existing_auctions at hu
  by_cases h : ids.isEmpty
  · rw [if_pos h] at hu
    exact absurd hu (Finset.not_mem_empty u)
  · simp only [h, Bool.false_eq_true, if_false] at hu
    exact (Finset.mem_filter.mp hu).2

/-- Witness for C10 at a concrete store and id list. -/
theorem C10_store_interface_witness :
    "a1" ∈ ["a1", "zz"]
    ∧ bulk_check_existing_auctions {"a1"} [] = (∅, false)
    ∧ bulk_delete_auctions {"a1"} [] = (({"a1"}, 0), false) :=
  ⟨(C10_store_interface {"a1"} ["a1", "zz"]).1 "a1" (by decide),
   (C10_store_interface {"a1"} []).2.1,
   (C10_store_interface {"a1"} []).2.2⟩

/-- C8 (amended): pymongo's default ordered bulk insert stops at the first
duplicate key: every record before the first duplicate is inserted, the
duplicate and everything after it are not; when the batch is conflict-free
every record is inserted and the count is reported, while on a conflict
`bulk_insert_auctions` surfaces the error (keeping its buffer) and reports no
count. -/
theorem C8_ordered_insert_abort (store : Finset String) (l pre post : List Auction)
    (d : Auction)
    (hl : ∀ a ∈ l, a.uuid ∉ store) (hlnodup : (l.map (fun a => a.uuid)).Nodup)
    (hfresh : ∀ a ∈ pre, a.uuid ∉ store) (hnodup : (pre.map (fun a => a.uuid)).Nodup)
    (hdup : d.uuid ∈ store ∨ d.uuid ∈ pre.map (fun a => a.uuid)) :
    insert_many_ordered store l
      = (l.foldl (fun s a => insert a.uuid s) store, l.length, false)
    ∧ insert_many_ordered store (pre ++ d :: post)
      = (pre.foldl (fun s a => insert a.uuid s) store, pre.length, true)
    ∧ bulk_insert_auctions store (pre ++ d :: post)
      = ((pre.foldl (fun s a => insert a.uuid s) store, pre ++ d :: post), none) := by
  refine ⟨insert_many_ordered_all_fresh l store hl hlnodup,
    insert_many_ordered_abort store pre d post hfresh hnodup hdup, ?_⟩
  unfold bulk_insert_auctions
  have hne : (pre ++ d :: post).isEmpty = false := by
    cases pre <;> rfl
  simp only [hne, Bool.false_eq_true, if_false,
    insert_many_ordered_abort store pre d post hfresh hnodup hdup]
  simp

/-- Witness for C8: a fresh batch is fully inserted; a batch whose first
record collides is aborted at position 0. -/
theorem C8_ordered_insert_abort_witness :
    insert_many_ordered {"u"} [cxFreshAuction]
      = ([cxFreshAuction].foldl (fun s a => insert a.uuid s) {"u"},
        [cxFreshAuction].length, false)
    ∧ insert_many_ordered {"u"} ([] ++ cxDupAuction :: [cxFreshAuction])
      = (([] : List Auction).foldl (fun s a => insert a.uuid s) {"u"},
        ([] : List Auction).length, true)
    ∧ bulk_insert_auctions {"u"} ([] ++ cxDupAuction :: [cxFreshAuction])
      = ((([] : List Auction).foldl (fun s a => insert a.uuid s) {"u"},
          [] ++ cxDupAuction :: [cxFreshAuction]), none) :=
  C8_ordered_insert_abort {"u"} [cxFreshAuction] [] [cxFreshAuction] cxDupAuction
    (by decide) (by decide) (by decide) (by decide) (by decide)

/-- Counterexample to C8 as stated: in the batch `[dup "u", fresh "v"]`
against a store containing `"u"`, the non-duplicate record `"v"` is NOT
inserted (the ordered insert aborts at the duplicate), and
`bulk_insert_auctions` reports no inserted count — the conflict propagates
instead of being absorbed per item. -/
theorem C8_counterexample :
    "v" ∉ (insert_many_ordered {"u"} [cxDupAuction, cxFreshAuction]).1
    ∧ (insert_many_ordered {"u"} [cxDupAuction, cxFreshAuction]).2.2 = true
    ∧ (bulk_insert_auctions {"u"} [cxDupAuction, cxFreshAuction]).2 = none
    ∧ cxFreshAuction.uuid ∉ ({"u"} : Finset String) := by
  decide

/-- C2: after the per-page pass, `initial_launch` imports
`reevaluate_all_existing_auctions` from `Handlers.AuctionHandlerOptimized`,
but no module of the repository defines that name, so the import raises and
the promised re-evaluation of the stored records never runs. -/
theorem C2_initial_launch_reevaluation_missing (pageFlips : Nat) :
    initial_launch_after_pages pageFlips
      = LaunchOutcome.importError "reevaluate_all_existing_auctions"
    ∧ "reevaluate_all_existing_auctions" ∉ auctionHandlerOptimizedModuleDefs := by
  refine ⟨?_, by decide⟩
  unfold initial_launch_after_pages
  rw [if_neg (by decide)]

/-- C9: for the two-page catalog of spec section 8.6 (page 0: fixed-price
unclaimed `a1` at price 100; page 1: non-fixed-price `a2`), one ingestion
cycle persists exactly `a1`; evaluating the persisted records with the
service's `estimatedValue = 150` for `a1` yields exactly one flip, for `a1`,
with `profit = 50` and `percentage = 50`; and the legacy evaluation creates a
flip only when the valuation strictly exceeds the asking price. -/
theorem C9_end_to_end_scenario :
    (run_cycle wDecode (fun _ => true) (fun l => BatchResp.ok (l.map wF))
        (fun _ => none) (fun _ => none) 0 ∅ [wPage0, wPage1]).1 = {"a1"}
    ∧ "a2" ∉ (run_cycle wDecode (fun _ => true) (fun l => BatchResp.ok (l.map wF))
        (fun _ => none) (fun _ => none) 0 ∅ [wPage0, wPage1]).1
    ∧ (process_page_optimized wDecode (fun _ => true) (fun l => BatchResp.ok (l.map wF))
        (fun _ => none) (fun _ => none) 0 ∅ wPage0).inserted = [wAuction1]
    ∧ (process_page_optimized wDecode (fun _ => true) (fun l => BatchResp.ok (l.map wF))
        (fun _ => none) (fun _ => none) 0
        (process_page_optimized wDecode (fun _ => true) (fun l => BatchResp.ok (l.map wF))
          (fun _ => none) (fun _ => none) 0 ∅ wPage0).store wPage1).inserted = []
    ∧ ((process_page_optimized wDecode (fun _ => true) (fun l => BatchResp.ok (l.map wF))
          (fun _ => none) (fun _ => none) 0 ∅ wPage0).inserted
        ++ (process_page_optimized wDecode (fun _ => true) (fun l => BatchResp.ok (l.map wF))
          (fun _ => none) (fun _ => none) 0
          (process_page_optimized wDecode (fun _ => true) (fun l => BatchResp.ok (l.map wF))
            (fun _ => none) (fun _ => none) 0 ∅ wPage0).store wPage1).inserted).filterMap
        (fun a => get_item_networth_flip (mkItemStats a) 150 "ITEM1"
          (fun _ => none) (fun _ => none))
      = [wFlip]
    ∧ wFlip.profit = 50 ∧ wFlip.percentage = 50
    ∧ (∀ (stats : ItemStats) (v : Rat) (itemid : String) (lb ds : String → Option Int),
        v ≤ (stats.starting_bid : Rat) →
        get_item_networth_flip stats v itemid lb ds = none) := by
  refine ⟨by decide, by decide, by decide, by decide, ?_, rfl, rfl, ?_⟩
  · have h0 : (process_page_optimized wDecode (fun _ => true) (fun l => BatchResp.ok (l.map wF))
        (fun _ => none) (fun _ => none) 0 ∅ wPage0).inserted = [wAuction1] := by decide
    have h1 : (process_page_optimized wDecode (fun _ => true) (fun l => BatchResp.ok (l.map wF))
        (fun _ => none) (fun _ => none) 0
        (process_page_optimized wDecode (fun _ => true) (fun l => BatchResp.ok (l.map wF))
          (fun _ => none) (fun _ => none) 0 ∅ wPage0).store wPage1).inserted = [] := by decide
    rw [h0, h1]
    show List.filterMap _ [wAuction1] = [wFlip]
    rw [List.filterMap_cons]
    have hflip : get_item_networth_flip (mkItemStats wAuction1) 150 "ITEM1"
        (fun _ => none) (fun _ => none) = some wFlip := by
      unfold get_item_networth_flip wFlip
      rw [if_pos (by norm_num [mkItemStats, wAuction1])]
      norm_num [mkItemStats, wAuction1]
    rw [hflip]
    rfl
  · intro stats v itemid lb ds hle
    unfold get_item_networth_flip
    rw [if_neg (not_lt.mpr hle)]

/-- Witness for C9: the strict-exceedance hypothesis discharged at the
boundary case `v = 100 = starting_bid` of auction `a1`. -/
theorem C9_end_to_end_scenario_witness :
    (100 : Rat) ≤ ((mkItemStats wAuction1).starting_bid : Rat)
    ∧ get_item_networth_flip (mkItemStats wAuction1) 100 "ITEM1"
        (fun _ => none) (fun _ => none) = none :=
  ⟨by norm_num [mkItemStats, wAuction1],
   C9_end_to_end_scenario.2.2.2.2.2.2.2 (mkItemStats wAuction1) 100 "ITEM1"
     (fun _ => none) (fun _ => none) (by norm_num [mkItemStats, wAuction1])⟩
